import Mathlib

/-!
# InsightLogs — verification of the job-polling protocol and log listing

Shallow embedding of the client-side analysis-job lifecycle and the log
listing/filtering code of the InsightLogs frontend:

* `AiAnalysis` page (`src/pages/AiAnalysis.jsx`): `pollJobStatus` (the
  status-poll loop), `startAnalysis` (the busy guard);
* `Logs` page (`src/pages/logs.jsx`): `fetchLogsFromServer` (server-filter
  downgrade and request-sequence tokens), `dedupeLogs`,
  `levelMatchesAnyFields` and the client-side filter predicate;
* `Dashboard` page (`src/pages/dashboard.jsx`): `stableLogKey`,
  `getTimestampFromLog` and the merge-with-cache refresh.

JavaScript conventions carried into the embedding: a "missing" string field
is modelled as `""` (the falsy cases `null`/`undefined`/`""` all behave the
same under `||` in the relevant code paths); JSON bodies that may be absent
are `Option`; numeric JS timestamps are `Int` (all relevant code paths use
integral millisecond/second values).
-/

namespace InsightLogs

/-! ## Poller: `pollJobStatus` (AiAnalysis.jsx lines 480–552)

The poll loop is event-driven: `doPoll` runs once immediately and then on a
fixed interval; every run issues one GET to the status endpoint.  We embed
one run of `doPoll` as a pure step function on the client state, with the
network outcome of that run supplied as input, and the interval timer as a
`timerActive` flag: `clearInterval(pollRef.current); pollRef.current = null`
is `timerActive := false`, and a tick only executes while the flag is set.
-/

/-- JSON body of a `GET /analysis/{job_id}` response, as the fields the
client reads (`body.status`, `body.state`, `body.error`, `body.message`).
A missing field is `""` (falsy). -/
structure StatusBody where
  status : String
  state : String
  error : String
  message : String
  deriving DecidableEq, Repr

/-- `(body && (body.status || body.state)) || "unknown"` (line 504). -/
def extractStatus (body : Option StatusBody) : String :=
  match body with
  | none => "unknown"
  | some b => if b.status ≠ "" then b.status else if b.state ≠ "" then b.state else "unknown"

/-- `body?.error || body?.message || "Analysis job failed on server"` (line 532). -/
def extractFailMsg (body : Option StatusBody) : String :=
  match body with
  | none => "Analysis job failed on server"
  | some b =>
    if b.error ≠ "" then b.error
    else if b.message ≠ "" then b.message
    else "Analysis job failed on server"

/-- Network outcome of one status check inside `doPoll`:
`httpError` is `!res.ok` (with the extracted message), `ok` is a 2xx reply
with its parsed body (`none` when the body was empty/unparsable), `netError`
is a thrown fetch error (the `catch` at line 543). -/
inductive TickResponse where
  | httpError (msg : String)
  | ok (body : Option StatusBody)
  | netError (msg : String)
  deriving DecidableEq, Repr

/-- Outcome of the result fetch `GET /ai/analyze/result/{job_id}`
(lines 509–522): `ok (some r)` is `rres.ok` with parsed body `r`,
`ok none` is `rres.ok` with an unparsable/empty body (text `rtext`),
`httpFail` is `!rres.ok` with the extracted message, `thrown` is the
`catch (e)` at line 521. -/
inductive ResultOutcome where
  | ok (body : Option String) (rtext : String)
  | httpFail (msg : String)
  | thrown (msg : String)
  deriving DecidableEq, Repr

/-- Client state touched by the poll loop: `attempts` (local counter),
`timerActive` (`pollRef.current !== null`), `error`/`analysis` (React state),
`jobStatus` (`pendingJob.status`), plus two effect counters: `checks`
(status-endpoint GETs issued) and `resultFetches` (result-endpoint GETs
issued). -/
structure PollState where
  attempts : Nat
  timerActive : Bool
  error : Option String
  analysis : Option String
  jobStatus : Option String
  checks : Nat
  resultFetches : Nat
  deriving DecidableEq, Repr

/-- State at the start of `pollJobStatus` after line 486 cleared any prior
timer and line 551 installed the new interval (the interval is installed
synchronously before the first response arrives, so the timer is active
throughout the first run of `doPoll`). -/
def initPollState : PollState :=
  { attempts := 0, timerActive := true, error := none, analysis := none
    jobStatus := none, checks := 0, resultFetches := 0 }

/-- One run of `doPoll` (lines 489–548), given the status-check outcome
`resp` and — consulted only on the `done` branch — the result-fetch outcome
`rout`. Follows the source line by line:
`attempts += 1`; issue the status GET (`checks + 1`); on `!res.ok` set the
error and clear the timer; otherwise extract the status, update
`pendingJob.status`, then branch on `done|succeeded|complete` (result fetch,
then in `finally` clear timer and force status `"done"`),
`failed|error` (error + clear timer), or attempt budget, else keep polling;
a thrown error sets the error and clears the timer. -/
def doPoll (maxAttempts : Nat) (resp : TickResponse) (rout : ResultOutcome)
    (s : PollState) : PollState :=
  let s := { s with attempts := s.attempts + 1, checks := s.checks + 1 }
  match resp with
  | .netError m =>
    { s with error := some ("Polling network error: " ++ m), timerActive := false }
  | .httpError m =>
    { s with error := some ("Polling error: " ++ m), timerActive := false }
  | .ok body =>
    let status := extractStatus body
    let s := { s with jobStatus := some status }
    if status = "done" ∨ status = "succeeded" ∨ status = "complete" then
      let s := { s with resultFetches := s.resultFetches + 1 }
      let s :=
        match rout with
        | .ok (some r) _ => { s with analysis := some r }
        | .ok none rtext => { s with analysis := some rtext }
        | .httpFail m => { s with error := some m }
        | .thrown m =>
          { s with error := some ("Failed to fetch analysis result: " ++ m) }
      { s with timerActive := false, jobStatus := some "done" }
    else if status = "failed" ∨ status = "error" then
      { s with error := some (extractFailMsg body), timerActive := false }
    else if s.attempts ≥ maxAttempts then
      { s with
        error := some "Polling timed out (max attempts). Analysis may still be running on server."
        timerActive := false }
    else s

/-- Run the loop from state `s` for `k` scheduled ticks: a tick executes
`doPoll` only while the interval timer is live (`clearInterval` stops all
further ticks). The environment `env` gives the network outcomes of the
`i`-th tick. -/
def runFrom (maxAttempts : Nat) (env : Nat → TickResponse × ResultOutcome)
    (s : PollState) : Nat → PollState
  | 0 => s
  | k + 1 =>
    let t := runFrom maxAttempts env s k
    if t.timerActive then doPoll maxAttempts (env k).1 (env k).2 t else t

/-- The whole poll loop of `pollJobStatus`, from its initial state. -/
def runTicks (maxAttempts : Nat) (env : Nat → TickResponse × ResultOutcome)
    (k : Nat) : PollState :=
  runFrom maxAttempts env initPollState k

/-- A status body whose only populated field is `status := "queued"`. -/
def queuedBody : StatusBody := { status := "queued", state := "", error := "", message := "" }

/-- Environment whose every status check answers 2xx `{status: "queued"}`. -/
def alwaysQueuedEnv : Nat → TickResponse × ResultOutcome :=
  fun _ => (TickResponse.ok (some queuedBody), ResultOutcome.httpFail "")

/-- The message of the attempt-budget branch (line 539). -/
def pollTimeoutMsg : String :=
  "Polling timed out (max attempts). Analysis may still be running on server."

/-- A status string lands in the `done` branch of `doPoll` (line 507). -/
def isDoneStatus (st : String) : Prop :=
  st = "done" ∨ st = "succeeded" ∨ st = "complete"

/-- A status string lands in the `failed` branch of `doPoll` (line 531). -/
def isFailedStatus (st : String) : Prop :=
  st = "failed" ∨ st = "error"

instance (st : String) : Decidable (isDoneStatus st) := by
  unfold isDoneStatus; infer_instance

instance (st : String) : Decidable (isFailedStatus st) := by
  unfold isFailedStatus; infer_instance

/-- Once the interval timer has been cleared, no scheduled tick runs:
the loop state is frozen. -/
theorem runFrom_frozen (m : Nat) (env : Nat → TickResponse × ResultOutcome)
    (s : PollState) (h : s.timerActive = false) (k : Nat) :
    runFrom m env s k = s := by
  induction k with
  | zero => rfl
  | succ k ih => simp [runFrom, ih, h]

/-- Unfolding of `doPoll` on a 2xx reply with a non-terminal status. -/
theorem doPoll_nonTerminal (m : Nat) (body : Option StatusBody)
    (rout : ResultOutcome) (s : PollState)
    (h1 : ¬ isDoneStatus (extractStatus body))
    (h2 : ¬ isFailedStatus (extractStatus body)) :
    doPoll m (.ok body) rout s =
      if s.attempts + 1 ≥ m then
        { s with attempts := s.attempts + 1, checks := s.checks + 1,
                 jobStatus := some (extractStatus body),
                 error := some pollTimeoutMsg, timerActive := false }
      else
        { s with attempts := s.attempts + 1, checks := s.checks + 1,
                 jobStatus := some (extractStatus body) } := by
  unfold isDoneStatus at h1
  unfold isFailedStatus at h2
  simp only [doPoll, if_neg h1, if_neg h2, pollTimeoutMsg]

/-- Full state of the loop when every reply is 2xx with a non-terminal
status: after `k` ticks the counters sit at `min k n` and the loop is live
iff the budget `n ≥ 1` is not yet exhausted. -/
theorem runTicks_nonTerminal_state (n : Nat) (hn : 1 ≤ n)
    (env : Nat → TickResponse × ResultOutcome)
    (henv : ∀ i, ∃ body, (env i).1 = TickResponse.ok body ∧
      ¬ isDoneStatus (extractStatus body) ∧ ¬ isFailedStatus (extractStatus body))
    (k : Nat) :
    (runTicks n env k).checks = min k n ∧
    (runTicks n env k).attempts = min k n ∧
    (runTicks n env k).timerActive = decide (k < n) ∧
    (runTicks n env k).resultFetches = 0 ∧
    (runTicks n env k).error = (if k < n then none else some pollTimeoutMsg) := by
  induction k with
  | zero =>
    have h0 : 0 < n := hn
    simp [runTicks, runFrom, initPollState, h0]
  | succ k ih =>
    obtain ⟨hc, ha, ht, hr, he⟩ := ih
    obtain ⟨body, hb, h1, h2⟩ := henv k
    have hstep : runTicks n env (k + 1) =
        if (runTicks n env k).timerActive = true then
          doPoll n (env k).1 (env k).2 (runTicks n env k)
        else runTicks n env k := rfl
    by_cases hk : k < n
    · have htt : (runTicks n env k).timerActive = true := by rw [ht]; simp [hk]
      rw [hstep, if_pos htt, hb, doPoll_nonTerminal n body (env k).2 _ h1 h2]
      have hmink : min k n = k := Nat.min_eq_left (Nat.le_of_lt hk)
      by_cases hk1 : k + 1 < n
      · rw [if_neg (by rw [ha, hmink]; omega)]
        refine ⟨?_, ?_, ?_, ?_, ?_⟩ <;>
          simp [hc, ha, ht, hr, he, hk, hk1, hmink] <;> omega
      · rw [if_pos (by rw [ha, hmink]; omega)]
        refine ⟨?_, ?_, ?_, ?_, ?_⟩ <;>
          simp [hc, ha, ht, hr, he, hk, hk1, hmink] <;> omega
    · have htt : (runTicks n env k).timerActive = false := by rw [ht]; simp [hk]
      rw [hstep, if_neg (by simp [htt])]
      have hk1 : ¬ (k + 1 < n) := by omega
      refine ⟨?_, ?_, ?_, ?_, ?_⟩ <;> simp [hc, ha, ht, hr, he, hk, hk1] <;> omega

/-- C3 —
For every attempt budget `n ≥ 1`, if the status endpoint always answers
with a (2xx) non-terminal status, the poll loop of `pollJobStatus` issues
exactly `n` status checks in total: after any number `k ≥ n` of scheduled
ticks the check counter is exactly `n`, the interval timer has been
cleared (so no further check ever occurs), no result fetch was issued, and
the surfaced condition is the polling-timeout message — which is not the
job-failure message of the `failed` branch. -/
theorem pollJobStatus_attempt_budget (n : Nat) (hn : 1 ≤ n)
    (env : Nat → TickResponse × ResultOutcome)
    (henv : ∀ i, ∃ body, (env i).1 = TickResponse.ok body ∧
      ¬ isDoneStatus (extractStatus body) ∧ ¬ isFailedStatus (extractStatus body))
    (k : Nat) :
    (runTicks n env k).checks ≤ n ∧
    (n ≤ k →
      (runTicks n env k).checks = n ∧
      (runTicks n env k).timerActive = false ∧
      (runTicks n env k).resultFetches = 0 ∧
      (runTicks n env k).error = some pollTimeoutMsg ∧
      pollTimeoutMsg ≠ "Analysis job failed on server") := by
  obtain ⟨hc, _, ht, hr, he⟩ := runTicks_nonTerminal_state n hn env henv k
  constructor
  · rw [hc]; omega
  · intro hkn
    have hlt : ¬ (k < n) := by omega
    refine ⟨by rw [hc]; omega, by rw [ht]; simp [hlt], hr, by rw [he]; simp [hlt], by decide⟩

/-- C3 witness: with `n = 3` and an always-`queued` endpoint, 5 scheduled
ticks produce exactly 3 checks, a cleared timer and the timeout message. -/
theorem pollJobStatus_attempt_budget_witness :
    (runTicks 3 alwaysQueuedEnv 5).checks = 3 ∧
    (runTicks 3 alwaysQueuedEnv 5).timerActive = false ∧
    (runTicks 3 alwaysQueuedEnv 5).resultFetches = 0 ∧
    (runTicks 3 alwaysQueuedEnv 5).error = some pollTimeoutMsg := by
  have h := pollJobStatus_attempt_budget 3 (by decide) alwaysQueuedEnv
    (fun i => ⟨some queuedBody, rfl, by decide, by decide⟩) 5
  obtain ⟨-, h2⟩ := h
  obtain ⟨a, b, c, d, -⟩ := h2 (by decide)
  exact ⟨a, b, c, d⟩

/-- C3 counterexample: with `max_attempts = 0` and an always-`queued`
endpoint, the code still issues one status check (the immediate `doPoll()`
at line 550 runs before the attempt budget is consulted), not zero. -/
theorem pollJobStatus_attempt_budget_zero_counterexample :
    (runTicks 0 alwaysQueuedEnv 1).checks = 1 ∧
    ¬ (runTicks 0 alwaysQueuedEnv 1).checks = 0 := by
  refine ⟨by decide, by decide⟩

/-- C1 —
For every poll response on a live loop, `doPoll` classifies the status
string exactly by the synonym map of lines 507 and 531: a status in
`{done, succeeded, complete}` issues one result fetch and clears the
interval timer; a status in `{failed, error}` clears the timer and issues
no result fetch; any other status string is non-terminal — as long as the
attempt budget is not exhausted, the timer stays live and no result fetch
is issued. -/
theorem pollJobStatus_status_synonyms (m : Nat) (s : PollState)
    (body : Option StatusBody) (rout : ResultOutcome)
    (hact : s.timerActive = true) :
    (isDoneStatus (extractStatus body) →
      (doPoll m (.ok body) rout s).resultFetches = s.resultFetches + 1 ∧
      (doPoll m (.ok body) rout s).timerActive = false) ∧
    (isFailedStatus (extractStatus body) →
      (doPoll m (.ok body) rout s).resultFetches = s.resultFetches ∧
      (doPoll m (.ok body) rout s).timerActive = false) ∧
    (¬ isDoneStatus (extractStatus body) → ¬ isFailedStatus (extractStatus body) →
      s.attempts + 1 < m →
      (doPoll m (.ok body) rout s).resultFetches = s.resultFetches ∧
      (doPoll m (.ok body) rout s).timerActive = true) := by
  refine ⟨?_, ?_, ?_⟩
  · intro h
    have h' := h
    unfold isDoneStatus at h'
    simp only [doPoll, if_pos h']
    cases rout with
    | ok b t => cases b <;> simp
    | httpFail msg => simp
    | thrown msg => simp
  · intro h
    have hnd : ¬ isDoneStatus (extractStatus body) := by
      unfold isFailedStatus at h
      unfold isDoneStatus
      rcases h with h | h <;> rw [h] <;> decide
    have h' := h
    unfold isFailedStatus at h'
    unfold isDoneStatus at hnd
    simp only [doPoll, if_neg hnd, if_pos h']
    simp
  · intro hnd hnf hbudget
    rw [doPoll_nonTerminal m body rout s hnd hnf, if_neg (by omega)]
    simp [hact]

/-- C1 witness: classification at `m = 120` from the initial state, for a
`succeeded` reply (result fetch + stop), an `error` reply (stop, no result
fetch) and an unrecognized `mystery` reply (keep polling). -/
theorem pollJobStatus_status_synonyms_witness :
    ((doPoll 120 (TickResponse.ok (some ⟨"succeeded", "", "", ""⟩))
        (ResultOutcome.ok (some "r") "t") initPollState).resultFetches = 1 ∧
     (doPoll 120 (TickResponse.ok (some ⟨"succeeded", "", "", ""⟩))
        (ResultOutcome.ok (some "r") "t") initPollState).timerActive = false) ∧
    ((doPoll 120 (TickResponse.ok (some ⟨"error", "", "", ""⟩))
        (ResultOutcome.ok (some "r") "t") initPollState).resultFetches = 0 ∧
     (doPoll 120 (TickResponse.ok (some ⟨"error", "", "", ""⟩))
        (ResultOutcome.ok (some "r") "t") initPollState).timerActive = false) ∧
    ((doPoll 120 (TickResponse.ok (some ⟨"mystery", "", "", ""⟩))
        (ResultOutcome.ok (some "r") "t") initPollState).resultFetches = 0 ∧
     (doPoll 120 (TickResponse.ok (some ⟨"mystery", "", "", ""⟩))
        (ResultOutcome.ok (some "r") "t") initPollState).timerActive = true) := by
  refine ⟨?_, ?_, ?_⟩
  · exact (pollJobStatus_status_synonyms 120 initPollState
      (some ⟨"succeeded", "", "", ""⟩) (ResultOutcome.ok (some "r") "t") rfl).1 (by decide)
  · exact (pollJobStatus_status_synonyms 120 initPollState
      (some ⟨"error", "", "", ""⟩) (ResultOutcome.ok (some "r") "t") rfl).2.1 (by decide)
  · exact (pollJobStatus_status_synonyms 120 initPollState
      (some ⟨"mystery", "", "", ""⟩) (ResultOutcome.ok (some "r") "t") rfl).2.2
      (by decide) (by decide) (by decide)

/-- C4 —
When a poll observes a `done`-class status, `doPoll` issues exactly one
fetch of the result endpoint and — whatever that fetch's outcome — the
`finally` block clears the interval timer and forces the tracked status to
`done`, so no scheduled tick ever runs another status check afterwards.
On a parsed 2xx result the result is attached; on a non-2xx result or a
thrown fetch error the corresponding error message is surfaced. -/
theorem pollJobStatus_done_stops_polling (m : Nat) (s : PollState)
    (body : Option StatusBody) (rout : ResultOutcome)
    (h : isDoneStatus (extractStatus body)) :
    (doPoll m (.ok body) rout s).timerActive = false ∧
    (doPoll m (.ok body) rout s).resultFetches = s.resultFetches + 1 ∧
    (doPoll m (.ok body) rout s).jobStatus = some "done" ∧
    (∀ r rtext, rout = .ok (some r) rtext →
      (doPoll m (.ok body) rout s).analysis = some r) ∧
    (∀ msg, rout = .httpFail msg →
      (doPoll m (.ok body) rout s).error = some msg) ∧
    (∀ msg, rout = .thrown msg →
      (doPoll m (.ok body) rout s).error =
        some ("Failed to fetch analysis result: " ++ msg)) ∧
    (∀ env k, runFrom m env (doPoll m (.ok body) rout s) k =
      doPoll m (.ok body) rout s) := by
  unfold isDoneStatus at h
  have hstop : (doPoll m (.ok body) rout s).timerActive = false := by
    cases rout with
    | ok b t => cases b <;> simp [doPoll, h]
    | httpFail msg => simp [doPoll, h]
    | thrown msg => simp [doPoll, h]
  refine ⟨hstop, ?_, ?_, ?_, ?_, ?_, fun env k => runFrom_frozen m env _ hstop k⟩ <;>
    (cases rout with
     | ok b t => cases b <;> simp [doPoll, h]
     | httpFail msg => simp [doPoll, h]
     | thrown msg => simp [doPoll, h])

/-- C4 witness: a `done` reply with a failing result fetch (HTTP 500 text)
still clears the timer, attaches no result, surfaces the fetch error, and
freezes the loop for any further scheduled ticks. -/
theorem pollJobStatus_done_stops_polling_witness :
    (doPoll 120 (TickResponse.ok (some ⟨"done", "", "", ""⟩))
      (ResultOutcome.httpFail "Result fetch returned 500") initPollState).timerActive = false ∧
    (doPoll 120 (TickResponse.ok (some ⟨"done", "", "", ""⟩))
      (ResultOutcome.httpFail "Result fetch returned 500") initPollState).error =
      some "Result fetch returned 500" ∧
    runFrom 120 alwaysQueuedEnv
      (doPoll 120 (TickResponse.ok (some ⟨"done", "", "", ""⟩))
        (ResultOutcome.httpFail "Result fetch returned 500") initPollState) 7 =
      doPoll 120 (TickResponse.ok (some ⟨"done", "", "", ""⟩))
        (ResultOutcome.httpFail "Result fetch returned 500") initPollState := by
  have h := pollJobStatus_done_stops_polling 120 initPollState
    (some ⟨"done", "", "", ""⟩) (ResultOutcome.httpFail "Result fetch returned 500")
    (by decide)
  exact ⟨h.1, h.2.2.2.2.1 "Result fetch returned 500" rfl, h.2.2.2.2.2.2 alwaysQueuedEnv 7⟩

/-- C10 —
If a single poll tick fails at the HTTP level (`!res.ok`) or at the
transport level (a thrown fetch error), `doPoll` surfaces the error message
and clears the interval timer, so the loop never issues another status
check: any further scheduled ticks leave the state frozen. -/
theorem pollJobStatus_tick_failure_stops (m : Nat) (s : PollState)
    (rout : ResultOutcome) (msg : String) :
    ((doPoll m (.httpError msg) rout s).timerActive = false ∧
     (doPoll m (.httpError msg) rout s).error = some ("Polling error: " ++ msg) ∧
     (doPoll m (.httpError msg) rout s).resultFetches = s.resultFetches ∧
     ∀ env k, runFrom m env (doPoll m (.httpError msg) rout s) k =
       doPoll m (.httpError msg) rout s) ∧
    ((doPoll m (.netError msg) rout s).timerActive = false ∧
     (doPoll m (.netError msg) rout s).error =
       some ("Polling network error: " ++ msg) ∧
     (doPoll m (.netError msg) rout s).resultFetches = s.resultFetches ∧
     ∀ env k, runFrom m env (doPoll m (.netError msg) rout s) k =
       doPoll m (.netError msg) rout s) := by
  refine ⟨⟨rfl, rfl, rfl, fun env k => runFrom_frozen m env _ rfl k⟩,
          ⟨rfl, rfl, rfl, fun env k => runFrom_frozen m env _ rfl k⟩⟩

/-! ## Single active poll loop (AiAnalysis.jsx lines 486, 550–551)

`pollJobStatus` keeps exactly one interval handle in `pollRef.current`:
line 486 runs `clearInterval(pollRef.current)` before anything else, and
line 551 stores the freshly created handle.  We model the session as a
trace of events: `start j` is a call to `pollJobStatus(j)` (clear the old
handle, install a fresh one), and `tick t` is the browser delivering a
tick of interval handle `t` — the tick executes `doPoll` (is *observed*)
only if `t` is still the stored handle, since `clearInterval` discards all
pending ticks of a cleared handle. -/

/-- A session-level event: a call to `pollJobStatus` for a job, or the
delivery of an interval tick for a given timer handle. -/
inductive PollEvent where
  | start (job : String)
  | tick (timer : Nat)
  deriving DecidableEq, Repr

/-- Session state: `activeTimer` is `pollRef.current` paired with the job
its `doPoll` closure polls; `nextTimer` generates fresh interval handles;
`observed` records the ticks that actually executed `doPoll`, each with
its handle and job. -/
structure SessionState where
  activeTimer : Option (Nat × String)
  nextTimer : Nat
  observed : List (Nat × String)
  deriving DecidableEq, Repr

def initSession : SessionState :=
  { activeTimer := none, nextTimer := 0, observed := [] }

/-- One session event: `start j` is lines 486 + 551 (clear the previous
handle, install a fresh one for `j`); `tick t` executes `doPoll` only if
handle `t` is still installed. -/
def stepSession (s : SessionState) : PollEvent → SessionState
  | .start j =>
    { s with activeTimer := some (s.nextTimer, j), nextTimer := s.nextTimer + 1 }
  | .tick t =>
    match s.activeTimer with
    | some aj => if aj.1 = t then { s with observed := s.observed ++ [aj] } else s
    | none => s

def runSession (es : List PollEvent) (s : SessionState) : SessionState :=
  es.foldl stepSession s

theorem runSession_cons (e : PollEvent) (es : List PollEvent) (s : SessionState) :
    runSession (e :: es) s = runSession es (stepSession s e) := rfl

theorem stepSession_tick_activeTimer (s : SessionState) (t : Nat) :
    (stepSession s (.tick t)).activeTimer = s.activeTimer := by
  cases hA : s.activeTimer with
  | none => simp [stepSession, hA]
  | some aj => by_cases h : aj.1 = t <;> simp [stepSession, hA, h]

theorem stepSession_tick_nextTimer (s : SessionState) (t : Nat) :
    (stepSession s (.tick t)).nextTimer = s.nextTimer := by
  cases hA : s.activeTimer with
  | none => simp [stepSession, hA]
  | some aj => by_cases h : aj.1 = t <;> simp [stepSession, hA, h]

/-- Every reachable session state stores a handle below the freshness
counter. -/
def timerBound (s : SessionState) : Prop :=
  ∀ p : Nat × String, s.activeTimer = some p → p.1 < s.nextTimer

/-- `timerBound` holds initially and is preserved by every event. -/
theorem timerBound_invariant :
    timerBound initSession ∧
    ∀ s e, timerBound s → timerBound (stepSession s e) := by
  constructor
  · intro p hp; simp [initSession] at hp
  · intro s e h
    cases e with
    | start j =>
      intro p hp
      simp only [stepSession, Option.some.injEq] at hp
      simp only [stepSession]
      rw [← hp]
      omega
    | tick t =>
      intro p hp
      rw [stepSession_tick_activeTimer] at hp
      rw [stepSession_tick_nextTimer]
      exact h p hp

/-- While no further `start` occurs, the stored handle is unchanged and
every newly observed tick carries exactly that handle and job. -/
theorem runSession_no_start (t : Nat) (B : String) (es : List PollEvent)
    (hes : ∀ e ∈ es, ∀ j, e ≠ PollEvent.start j) :
    ∀ s : SessionState, s.activeTimer = some (t, B) →
      (runSession es s).activeTimer = some (t, B) ∧
      ∃ l, (runSession es s).observed = s.observed ++ l ∧ ∀ x ∈ l, x = (t, B) := by
  induction es with
  | nil => intro s hA; exact ⟨hA, [], by simp [runSession], by simp⟩
  | cons e es ih =>
    intro s hA
    have hes' : ∀ e ∈ es, ∀ j, e ≠ PollEvent.start j := fun e he => hes e (by simp [he])
    cases e with
    | start j => exact absurd rfl (hes (.start j) (by simp) j)
    | tick t' =>
      rw [runSession_cons]
      by_cases ht : t = t'
      · subst ht
        have hstep : stepSession s (.tick t) =
            { s with observed := s.observed ++ [(t, B)] } := by
          simp [stepSession, hA]
        obtain ⟨h1, l, h2, h3⟩ :=
          ih hes' (stepSession s (.tick t)) (by rw [hstep]; exact hA)
        refine ⟨h1, (t, B) :: l, ?_, ?_⟩
        · rw [h2, hstep]
          simp
        · intro x hx
          rcases List.mem_cons.mp hx with h | h
          · exact h
          · exact h3 x h
      · have hstep : stepSession s (.tick t') = s := by
          simp [stepSession, hA, ht]
        rw [hstep]
        exact ih hes' s hA

/-- C5 —
Starting a poll for job `B` while a poll for job `A` (interval handle `a`)
is active first clears `A`'s handle, so as long as no further
`pollJobStatus` call occurs, every tick observed after `B`'s start belongs
to `B`'s fresh handle — no tick of `A`'s loop is ever observed again, even
if the browser still delivers `tick a` events. -/
theorem pollJobStatus_start_stops_prior_loop (s : SessionState) (A B : String)
    (a : Nat) (hA : s.activeTimer = some (a, A)) (hbound : timerBound s)
    (es : List PollEvent) (hes : ∀ e ∈ es, ∀ j, e ≠ PollEvent.start j) :
    (stepSession s (.start B)).activeTimer = some (s.nextTimer, B) ∧
    ∃ l, (runSession es (stepSession s (.start B))).observed = s.observed ++ l ∧
      ∀ x ∈ l, x = (s.nextTimer, B) ∧ x.1 ≠ a := by
  have hstart : (stepSession s (.start B)).activeTimer = some (s.nextTimer, B) := by
    simp [stepSession]
  obtain ⟨h1, l, h2, h3⟩ :=
    runSession_no_start s.nextTimer B es hes (stepSession s (.start B)) hstart
  have ha : a < s.nextTimer := hbound (a, A) hA
  refine ⟨hstart, l, ?_, fun x hx => ⟨h3 x hx, ?_⟩⟩
  · rw [h2]; simp [stepSession]
  · rw [h3 x hx]; simp; omega

/-- C5 witness: with `A`'s loop active on handle 0, starting `B` and then
delivering a stale tick of handle 0 and a tick of `B`'s handle 1 observes
only `B`'s tick. -/
theorem pollJobStatus_start_stops_prior_loop_witness :
    (stepSession ⟨some (0, "A"), 1, [(0, "A")]⟩ (.start "B")).activeTimer =
      some (1, "B") ∧
    ∃ l, (runSession [PollEvent.tick 0, PollEvent.tick 1]
        (stepSession ⟨some (0, "A"), 1, [(0, "A")]⟩ (.start "B"))).observed =
      [(0, "A")] ++ l ∧ ∀ x ∈ l, x = (1, "B") ∧ x.1 ≠ 0 := by
  exact pollJobStatus_start_stops_prior_loop ⟨some (0, "A"), 1, [(0, "A")]⟩ "A" "B" 0
    rfl
    (by intro p hp; simp at hp; rw [← hp]; decide)
    [PollEvent.tick 0, PollEvent.tick 1]
    (by intro e he j; simp at he; rcases he with rfl | rfl <;> simp)

/-! ## Start guard of `startAnalysis` (AiAnalysis.jsx lines 565–585) -/

/-- The client-tracked pending job (`pendingJob` React state):
`status := ""` models a null/undefined (falsy) status. -/
structure PendingJob where
  jobId : Option String
  status : String
  deriving DecidableEq, Repr

/-- Outcome of the guard section of `startAnalysis`: `noFile` is the
"No uploaded file found" early return, `busy` is the "already queued or
running" early return, `proceed` means the code falls through to
`runAnalysisForFile` (the only path that contacts the server). -/
inductive StartOutcome where
  | noFile
  | busy
  | proceed
  deriving DecidableEq, Repr

/-- The guard condition of line 572:
`pendingJob && pendingJob.status && pendingJob.status !== "done" &&
pendingJob.status !== "cancelled"`. -/
def startBlocked (pendingJob : Option PendingJob) : Bool :=
  match pendingJob with
  | none => false
  | some j => (j.status != "") && (j.status != "done") && (j.status != "cancelled")

/-- The guard sequence of `startAnalysis` (lines 567–575): no file → early
error; blocked → "busy" error without contacting the server; otherwise
proceed to the network call. -/
def startAnalysisGuard (lastFileId : Option String)
    (pendingJob : Option PendingJob) : StartOutcome :=
  match lastFileId with
  | none => .noFile
  | some _ => if startBlocked pendingJob then .busy else .proceed

/-- C2 counterexample: a tracked job in the *terminal* state `failed` — the
claim says a new analysis may then start — is still rejected as busy by the
code, and likewise `error` and `unknown`; so "busy iff the tracked job is
non-terminal (queued or running)" is false on the code. -/
theorem startAnalysis_busy_guard_counterexample :
    startAnalysisGuard (some "file-1") (some { jobId := some "job-1", status := "failed" }) =
      StartOutcome.busy ∧
    ¬ startAnalysisGuard (some "file-1") (some { jobId := some "job-1", status := "failed" }) =
      StartOutcome.proceed := by
  exact ⟨by decide, by decide⟩

/-- C2 (amended) —
With an upload present, `startAnalysis` returns the "busy" error — before
any network call — iff the tracked job's status is nonempty and is neither
`done` nor `cancelled`; so `queued` and `running` are rejected as the claim
says, but the terminal statuses `failed`/`error` (and `unknown`) also
block a new analysis: only `done` and `cancelled` (or no tracked
job/status) let one start. -/
theorem startAnalysis_busy_guard (fid : String) (pj : Option PendingJob) :
    (startAnalysisGuard (some fid) pj = .busy ↔
      ∃ j, pj = some j ∧ j.status ≠ "" ∧ j.status ≠ "done" ∧ j.status ≠ "cancelled") ∧
    (startAnalysisGuard (some fid) pj = .proceed ↔
      pj = none ∨ ∃ j, pj = some j ∧
        (j.status = "" ∨ j.status = "done" ∨ j.status = "cancelled")) ∧
    startAnalysisGuard none pj = .noFile := by
  refine ⟨?_, ?_, rfl⟩
  · cases pj with
    | none => simp [startAnalysisGuard, startBlocked]
    | some j =>
      simp only [startAnalysisGuard, startBlocked]
      by_cases h1 : j.status = "" <;> by_cases h2 : j.status = "done" <;>
        by_cases h3 : j.status = "cancelled" <;> simp [h1, h2, h3]
  · cases pj with
    | none => simp [startAnalysisGuard, startBlocked]
    | some j =>
      simp only [startAnalysisGuard, startBlocked]
      by_cases h1 : j.status = "" <;> by_cases h2 : j.status = "done" <;>
        by_cases h3 : j.status = "cancelled" <;> simp [h1, h2, h3]

/-- C2 witness: a `queued` tracked job is busy; a `done` one proceeds. -/
theorem startAnalysis_busy_guard_witness :
    startAnalysisGuard (some "f") (some { jobId := some "j", status := "queued" }) =
      StartOutcome.busy ∧
    startAnalysisGuard (some "f") (some { jobId := some "j", status := "done" }) =
      StartOutcome.proceed := by
  constructor
  · exact (startAnalysis_busy_guard "f"
      (some { jobId := some "j", status := "queued" })).1.mpr
      ⟨_, rfl, by decide, by decide, by decide⟩
  · exact ((startAnalysis_busy_guard "f"
      (some { jobId := some "j", status := "done" })).2.1).mpr
      (Or.inr ⟨_, rfl, Or.inr (Or.inl rfl)⟩)

/-! ## Logs page (`src/pages/logs.jsx`)

Rows, deduplication, the client-side filter predicate, and the
`fetchLogsFromServer` state machine (server-filter downgrade and
request-sequence tokens). -/

/-- A log row as the Logs page reads it.  String fields model JS string
values with `""` for a missing/falsy field; the four upload-reference
fields are `Option` because the code reads them with the nullish operator
`??` (which, unlike `||`, keeps `""`). -/
structure LogRow where
  id : Option String
  timestamp : String
  level : String
  level_name : String
  severity : String
  service : String
  message : String
  raw : String
  upload_id : Option String
  uploadId : Option String
  file_id : Option String
  fileId : Option String
  deriving DecidableEq, Repr

/-- The deduplication key of `dedupeLogs` (logs.jsx line 72):
`r.id ?? `${r.timestamp || ""}::${r.message || r.raw || ""}``. -/
def logKey (r : LogRow) : String :=
  match r.id with
  | some i => i
  | none => r.timestamp ++ "::" ++ (if r.message ≠ "" then r.message else r.raw)

/-- Recursion of `dedupeLogs` (lines 68–79): walk the array keeping the
first row of each key. -/
def dedupeLogsAux (seen : List String) : List LogRow → List LogRow
  | [] => []
  | r :: rest =>
    if logKey r ∈ seen then dedupeLogsAux seen rest
    else r :: dedupeLogsAux (logKey r :: seen) rest

/-- `dedupeLogs` (lines 68–79). -/
def dedupeLogs (arr : List LogRow) : List LogRow :=
  dedupeLogsAux [] arr

/-- JS `hay.includes(needle)`: substring containment. -/
def strIncludes (hay needle : String) : Bool :=
  decide (needle.toList <:+: hay.toList)

/-- `levelMatchesAnyFields` (lines 46–65): the level filter matches if any
truthy candidate field, uppercased, equals or contains the uppercased
filter token. -/
def levelMatchesAnyFields (record : LogRow) (filter : String) : Bool :=
  if filter = "" then true
  else
    let want := filter.toUpper
    let candidates :=
      ([record.level, record.level_name, record.severity, record.raw,
        record.message].filter (· ≠ "")).map String.toUpper
    candidates.any (fun c => c == want || strIncludes c want)

/-- `String(r.upload_id ?? r.uploadId ?? r.file_id ?? r.fileId ?? "")`
(lines 307–309). -/
def uploadVal (r : LogRow) : String :=
  match r.upload_id with
  | some v => v
  | none =>
    match r.uploadId with
    | some v => v
    | none =>
      match r.file_id with
      | some v => v
      | none =>
        match r.fileId with
        | some v => v
        | none => ""

/-- The client-side filter predicate of the `filtered` memo
(lines 303–327): upload match, then level match, then free-text search
over `message raw level service` joined with spaces, lowercased. -/
def clientMatch (q levelFilter selectedUploadId : String) (r : LogRow) : Bool :=
  let qlow := q.toLower
  if selectedUploadId ≠ "" ∧ selectedUploadId ≠ uploadVal r then false
  else if levelFilter ≠ "" ∧ levelMatchesAnyFields r levelFilter = false then false
  else if qlow = "" then true
  else
    strIncludes ((String.intercalate " " [r.message, r.raw, r.level, r.service]).toLower) qlow

/-- The rendered `filtered` list (line 306): `logs.filter(...)`. -/
def filteredLogs (q levelFilter selectedUploadId : String) (rows : List LogRow) :
    List LogRow :=
  rows.filter (clientMatch q levelFilter selectedUploadId)

/-- The `params` object passed to `fetchLogsFromServer` (lines 194–196):
`limit` (a number, falsy iff 0) plus optional `upload_id`/`q` (strings,
falsy iff empty). -/
structure LogsFetchParams where
  limit : Nat
  upload_id : String
  q : String
  deriving DecidableEq, Repr

/-- The query string built at lines 136–141: `limit` whenever truthy, and
`upload_id`/`q` only while `useServerFiltering` holds. -/
def buildQueryParams (useServerFiltering : Bool) (p : LogsFetchParams) :
    List (String × String) :=
  (if p.limit ≠ 0 then [("limit", toString p.limit)] else []) ++
  (if useServerFiltering then
    (if p.upload_id ≠ "" then [("upload_id", p.upload_id)] else []) ++
    (if p.q ≠ "" then [("q", p.q)] else [])
  else [])

/-- One issued fetch: its sequence token (`thisFetchId`, line 122), the
`useServerFiltering` argument it was called with, and its params. -/
structure LogsRequest where
  token : Nat
  usedSF : Bool
  params : LogsFetchParams
  deriving DecidableEq, Repr

/-- Server answer to a fetch: an HTTP status with the parsed row array
(used only when 2xx), a thrown network error, or an abort (the newer
request aborted this one; its `AbortError` is swallowed at line 178). -/
inductive LogsResponse where
  | http (status : Nat) (rows : List LogRow)
  | netError
  | aborted
  deriving DecidableEq, Repr

/-- A session event: the filter effect issues a fetch (lines 120–143), or
the network delivers the response of a previously issued fetch. -/
inductive LogsEvent where
  | issue (p : LogsFetchParams)
  | respond (r : LogsRequest) (resp : LogsResponse)
  deriving DecidableEq, Repr

/-- Session state of the Logs page: `serverFilteringSupported` (line 88),
`fetchId` (`fetchIdRef`, line 99), the requests issued so far, the `logs`
React state, and whether an error was surfaced. -/
structure LogsState where
  serverFilteringSupported : Bool
  fetchId : Nat
  issued : List LogsRequest
  logs : List LogRow
  errorFlag : Bool
  deriving DecidableEq, Repr

def initLogsState : LogsState :=
  { serverFilteringSupported := true, fetchId := 0, issued := [], logs := []
    errorFlag := false }

/-- One session event.  `issue p` is lines 120–143: increment the global
fetch id, capture the current `serverFilteringSupported` as the
`useServerFiltering` argument (line 200/203), abort the previous in-flight
request and send the new one.  `respond r resp` is the response handler
(lines 145–187): a 400/404/422 on a filtered request flips
`serverFilteringSupported` off and returns; any other non-2xx (or a thrown
non-abort error) surfaces an error; a 2xx updates `logs` with the deduped
rows only if the request's token still equals the latest `fetchId`; an
`AbortError` is ignored. -/
def stepLogs (s : LogsState) : LogsEvent → LogsState
  | .issue p =>
    { s with fetchId := s.fetchId + 1,
             issued := s.issued ++
               [{ token := s.fetchId + 1, usedSF := s.serverFilteringSupported,
                  params := p }] }
  | .respond r resp =>
    if r ∈ s.issued then
      match resp with
      | .http status rows =>
        if (status = 404 ∨ status = 400 ∨ status = 422) ∧ r.usedSF = true then
          { s with serverFilteringSupported := false }
        else if 200 ≤ status ∧ status < 300 then
          if r.token = s.fetchId then { s with logs := dedupeLogs rows } else s
        else { s with errorFlag := true }
      | .netError => { s with errorFlag := true }
      | .aborted => s
    else s

def runLogs (es : List LogsEvent) (s : LogsState) : LogsState :=
  es.foldl stepLogs s

theorem runLogs_cons (e : LogsEvent) (es : List LogsEvent) (s : LogsState) :
    runLogs (e :: es) s = runLogs es (stepLogs s e) := rfl

theorem stepLogs_respond_issued (s : LogsState) (r : LogsRequest)
    (resp : LogsResponse) :
    (stepLogs s (.respond r resp)).issued = s.issued := by
  by_cases hm : r ∈ s.issued
  · cases resp <;> simp [stepLogs, hm] <;> split_ifs <;> rfl
  · simp [stepLogs, hm]

/-- Nothing ever sets `serverFilteringSupported` back to `true`. -/
theorem stepLogs_preserves_downgrade (s : LogsState) (e : LogsEvent)
    (h : s.serverFilteringSupported = false) :
    (stepLogs s e).serverFilteringSupported = false := by
  cases e with
  | issue p => simpa [stepLogs] using h
  | respond r resp =>
    by_cases hm : r ∈ s.issued
    · cases resp with
      | http status rows =>
        simp only [stepLogs]
        rw [if_pos hm]
        split_ifs <;> simp [h]
      | netError => simpa [stepLogs, hm] using h
      | aborted => simpa [stepLogs, hm] using h
    · simpa [stepLogs, hm] using h

theorem runLogs_preserves_downgrade (es : List LogsEvent) :
    ∀ s : LogsState, s.serverFilteringSupported = false →
      (runLogs es s).serverFilteringSupported = false := by
  induction es with
  | nil => intro s h; exact h
  | cons e es ih =>
    intro s h
    rw [runLogs_cons]
    exact ih _ (stepLogs_preserves_downgrade s e h)

theorem stepLogs_fetchId_mono (s : LogsState) (e : LogsEvent) :
    s.fetchId ≤ (stepLogs s e).fetchId := by
  cases e with
  | issue p => simp [stepLogs]
  | respond r resp =>
    by_cases hm : r ∈ s.issued
    · cases resp <;> simp [stepLogs, hm] <;> split_ifs <;> simp
    · simp [stepLogs, hm]

theorem runLogs_fetchId_mono (es : List LogsEvent) :
    ∀ s : LogsState, s.fetchId ≤ (runLogs es s).fetchId := by
  induction es with
  | nil => intro s; exact le_refl _
  | cons e es ih =>
    intro s
    rw [runLogs_cons]
    exact le_trans (stepLogs_fetchId_mono s e) (ih _)

/-- After the downgrade, every newly issued request captures
`useServerFiltering = false`. -/
theorem runLogs_new_requests_unfiltered (es : List LogsEvent) :
    ∀ s : LogsState, s.serverFilteringSupported = false →
      ∀ req ∈ (runLogs es s).issued, req ∉ s.issued → req.usedSF = false := by
  induction es with
  | nil => intro s h req hreq hnot; exact absurd hreq hnot
  | cons e es ih =>
    intro s h req hreq hnot
    rw [runLogs_cons] at hreq
    by_cases hmem : req ∈ (stepLogs s e).issued
    · cases e with
      | issue p =>
        have hsplit : req ∈ s.issued ∨
            req = { token := s.fetchId + 1, usedSF := s.serverFilteringSupported,
                    params := p } := by
          simpa [stepLogs] using hmem
        rcases hsplit with hc | hc
        · exact absurd hc hnot
        · simp [hc, h]
      | respond r resp =>
        rw [stepLogs_respond_issued] at hmem
        exact absurd hmem hnot
    · exact ih _ (stepLogs_preserves_downgrade s e h) req hreq hmem

/-- C6 —
A 400/404/422 on a filtered list request permanently downgrades the
session: the flag flips off (without touching the displayed logs), stays
off for every subsequent event, every request issued after the downgrade
is sent without server filtering — its query string carries no `upload_id`
and no `q` key, only (at most) `limit` — and the rendered rows are always
the client-side filter predicate applied to the fetched rows. -/
theorem logs_server_filter_downgrade (s : LogsState) (r : LogsRequest)
    (hr : r ∈ s.issued) (hsf : r.usedSF = true) (status : Nat)
    (hst : status = 400 ∨ status = 404 ∨ status = 422) (rows : List LogRow)
    (post : List LogsEvent) :
    (stepLogs s (.respond r (.http status rows))).serverFilteringSupported = false ∧
    (stepLogs s (.respond r (.http status rows))).logs = s.logs ∧
    (runLogs post
      (stepLogs s (.respond r (.http status rows)))).serverFilteringSupported = false ∧
    (∀ req ∈ (runLogs post (stepLogs s (.respond r (.http status rows)))).issued,
      req ∉ (stepLogs s (.respond r (.http status rows))).issued →
        req.usedSF = false) ∧
    (∀ p : LogsFetchParams, ∀ kv ∈ buildQueryParams false p, kv.1 = "limit") ∧
    (∀ q lf sel rowsl (x : LogRow),
      x ∈ filteredLogs q lf sel rowsl ↔ x ∈ rowsl ∧ clientMatch q lf sel x = true) := by
  have hcond : (status = 404 ∨ status = 400 ∨ status = 422) ∧ r.usedSF = true := by
    refine ⟨?_, hsf⟩
    rcases hst with h | h | h <;> simp [h]
  have hdg : stepLogs s (.respond r (.http status rows)) =
      { s with serverFilteringSupported := false } := by
    simp [stepLogs, hr, hcond]
  refine ⟨by rw [hdg], by rw [hdg], ?_, ?_, ?_, ?_⟩
  · exact runLogs_preserves_downgrade post _ (by rw [hdg])
  · exact runLogs_new_requests_unfiltered post _ (by rw [hdg])
  · intro p kv hkv
    simp only [buildQueryParams, Bool.false_eq_true, if_false, List.append_nil] at hkv
    split_ifs at hkv <;> simp_all
  · intro q lf sel rowsl x
    exact List.mem_filter

/-- Concrete data for the Logs-session witnesses. -/
def sampleParams : LogsFetchParams := { limit := 500, upload_id := "u1", q := "err" }

def sampleReq1 : LogsRequest := { token := 1, usedSF := true, params := sampleParams }

def sampleReq2 : LogsRequest := { token := 2, usedSF := true, params := sampleParams }

def sampleLogsState : LogsState :=
  { serverFilteringSupported := true, fetchId := 2, issued := [sampleReq1, sampleReq2],
    logs := [], errorFlag := false }

def sampleRow : LogRow :=
  { id := some "1", timestamp := "2024-01-01T00:00:00Z", level := "INFO",
    level_name := "", severity := "", service := "api", message := "started",
    raw := "", upload_id := some "u1", uploadId := none, file_id := none,
    fileId := none }

/-- C6 witness: a 422 on the second (filtered) request downgrades the
session, a later issue keeps it downgraded, and the unfiltered query only
ever carries `limit`. -/
theorem logs_server_filter_downgrade_witness :
    (stepLogs sampleLogsState
      (.respond sampleReq2 (.http 422 []))).serverFilteringSupported = false ∧
    (runLogs [LogsEvent.issue sampleParams]
      (stepLogs sampleLogsState
        (.respond sampleReq2 (.http 422 [])))).serverFilteringSupported = false ∧
    (∀ kv ∈ buildQueryParams false sampleParams, kv.1 = "limit") := by
  have h := logs_server_filter_downgrade sampleLogsState sampleReq2 (by decide) rfl
    422 (by decide) [] [LogsEvent.issue sampleParams]
  exact ⟨h.1, h.2.2.1, fun kv hkv => h.2.2.2.2.1 sampleParams kv hkv⟩

/-- C7 —
Request-sequence tokens make the displayed logs follow only the most
recently issued request: issuing a fetch increments the token and records
the request with the fresh token; the token is monotone over any event
sequence; a response whose token differs from the current token leaves the
displayed logs unchanged (stale responses are discarded even if they
arrive later); a 2xx response carrying the current token installs its
deduplicated rows; and once a newer request exists, an older token never
matches again. -/
theorem logs_latest_response_wins (s : LogsState) (r : LogsRequest)
    (status : Nat) (rows : List LogRow) (resp : LogsResponse)
    (p : LogsFetchParams) :
    ((stepLogs s (.issue p)).fetchId = s.fetchId + 1 ∧
      { token := s.fetchId + 1, usedSF := s.serverFilteringSupported, params := p } ∈
        (stepLogs s (.issue p)).issued) ∧
    (∀ es, s.fetchId ≤ (runLogs es s).fetchId) ∧
    (r.token ≠ s.fetchId → (stepLogs s (.respond r resp)).logs = s.logs) ∧
    (r ∈ s.issued → r.token = s.fetchId → 200 ≤ status → status < 300 →
      (stepLogs s (.respond r (.http status rows))).logs = dedupeLogs rows) ∧
    (∀ es, r.token < s.fetchId → r.token < (runLogs es s).fetchId) := by
  refine ⟨⟨by simp [stepLogs], by simp [stepLogs]⟩,
    fun es => runLogs_fetchId_mono es s, ?_, ?_, ?_⟩
  · intro hne
    by_cases hm : r ∈ s.issued
    · cases resp with
      | http st rows' =>
        simp only [stepLogs]
        rw [if_pos hm]
        split_ifs <;> rfl
      | netError => simp [stepLogs, hm]
      | aborted => simp [stepLogs, hm]
    · simp [stepLogs, hm]
  · intro hm htok h200 h300
    have hnd : ¬ ((status = 404 ∨ status = 400 ∨ status = 422) ∧ r.usedSF = true) := by
      rintro ⟨h, -⟩
      rcases h with h | h | h <;> omega
    simp only [stepLogs]
    rw [if_pos hm, if_neg hnd, if_pos ⟨h200, h300⟩, if_pos htok]
  · intro es hlt
    exact lt_of_lt_of_le hlt (runLogs_fetchId_mono es s)

/-- C7 witness: with requests 1 and 2 issued (current token 2), request 1's
late 200 response is discarded while request 2's 200 response installs its
deduplicated rows. -/
theorem logs_latest_response_wins_witness :
    (stepLogs sampleLogsState (.respond sampleReq1 (.http 200 [sampleRow]))).logs = [] ∧
    (stepLogs sampleLogsState (.respond sampleReq2 (.http 200 [sampleRow]))).logs =
      dedupeLogs [sampleRow] := by
  constructor
  · exact (logs_latest_response_wins sampleLogsState sampleReq1 200 [sampleRow]
      (.http 200 [sampleRow]) sampleParams).2.2.1 (by decide)
  · exact (logs_latest_response_wins sampleLogsState sampleReq2 200 [sampleRow]
      (.http 200 [sampleRow]) sampleParams).2.2.2.1 (by decide) rfl (by decide) (by decide)

/-! ### Deduplication (C8) -/

/-- An id-less row with empty message and a nonempty raw line. -/
def rowEmptyMsgA : LogRow :=
  { id := none, timestamp := "2024-01-01T00:00:00Z", level := "", level_name := "",
    severity := "", service := "", message := "", raw := "connection reset",
    upload_id := none, uploadId := none, file_id := none, fileId := none }

/-- Like `rowEmptyMsgA` but with a different raw line. -/
def rowEmptyMsgB : LogRow := { rowEmptyMsgA with raw := "disk full" }

/-- Two rows sharing id `"1"` but differing elsewhere. -/
def rowId1a : LogRow := { sampleRow with message := "one" }

def rowId1b : LogRow := { sampleRow with message := "two" }

/-- Two id-less rows with equal timestamp and equal nonempty message but
different raw lines. -/
def rowTsMsgA : LogRow := { rowEmptyMsgA with message := "boom" }

def rowTsMsgB : LogRow := { rowEmptyMsgB with message := "boom" }

theorem dedupeLogsAux_nodup_and_fresh (arr : List LogRow) :
    ∀ seen : List String,
      ((dedupeLogsAux seen arr).map logKey).Nodup ∧
      ∀ r ∈ dedupeLogsAux seen arr, logKey r ∉ seen := by
  induction arr with
  | nil => intro seen; simp [dedupeLogsAux]
  | cons r rest ih =>
    intro seen
    by_cases h : logKey r ∈ seen
    · simpa [dedupeLogsAux, h] using ih seen
    · obtain ⟨ih1, ih2⟩ := ih (logKey r :: seen)
      simp only [dedupeLogsAux, if_neg h]
      refine ⟨?_, ?_⟩
      · simp only [List.map_cons, List.nodup_cons]
        refine ⟨?_, ih1⟩
        intro hmem
        obtain ⟨x, hx, hkx⟩ := List.mem_map.mp hmem
        exact (ih2 x hx) (by rw [hkx]; exact List.mem_cons_self _ _)
      · intro x hx
        rcases List.mem_cons.mp hx with rfl | hx'
        · exact h
        · exact fun hc => (ih2 x hx') (List.mem_cons_of_mem _ hc)

theorem dedupeLogsAux_mem (arr : List LogRow) :
    ∀ seen : List String, ∀ r ∈ arr,
      logKey r ∈ seen ∨ logKey r ∈ (dedupeLogsAux seen arr).map logKey := by
  induction arr with
  | nil => intro seen r hr; simp at hr
  | cons x rest ih =>
    intro seen r hr
    rcases List.mem_cons.mp hr with rfl | hr'
    · by_cases h : logKey r ∈ seen
      · exact Or.inl h
      · right
        simp [dedupeLogsAux, h]
    · by_cases h : logKey x ∈ seen
      · rcases ih seen r hr' with h1 | h1
        · exact Or.inl h1
        · right
          simpa [dedupeLogsAux, h] using h1
      · rcases ih (logKey x :: seen) r hr' with h1 | h1
        · rcases List.mem_cons.mp h1 with h2 | h2
          · right
            simp [dedupeLogsAux, h, h2]
          · exact Or.inl h2
        · right
          simp only [dedupeLogsAux, if_neg h, List.map_cons, List.mem_cons]
          exact Or.inr h1

/-- Two adjacent rows with the same key collapse to the first. -/
theorem dedupeLogs_pair (r1 r2 : LogRow) (h : logKey r2 = logKey r1) :
    dedupeLogs [r1, r2] = [r1] := by
  simp [dedupeLogs, dedupeLogsAux, h]

/-- C8 counterexample: two id-less rows with equal timestamp and equal
(empty) message but different `raw` do *not* collapse — the composite key
is `timestamp::(message || raw)`, so the raw field stands in for an empty
message and the rows keep distinct keys. -/
theorem dedupeLogs_composite_key_counterexample :
    rowEmptyMsgA.id = none ∧ rowEmptyMsgB.id = none ∧
    rowEmptyMsgA.timestamp = rowEmptyMsgB.timestamp ∧
    rowEmptyMsgA.message = rowEmptyMsgB.message ∧
    dedupeLogs [rowEmptyMsgA, rowEmptyMsgB] = [rowEmptyMsgA, rowEmptyMsgB] ∧
    (dedupeLogs [rowEmptyMsgA, rowEmptyMsgB]).length ≠ 1 := by
  decide

/-- C8 (amended) —
`dedupeLogs` deduplicates by `id` when present, else by the composite key
`timestamp::(message, or raw when the message is empty)`: the output has
pairwise-distinct keys, every input key is represented, two rows sharing an
id collapse to the first, and two id-less rows with equal timestamp and
equal *nonempty* message collapse to the first (with an empty message the
raw fields must also agree). -/
theorem dedupeLogs_identity (arr : List LogRow) (r1 r2 : LogRow) :
    ((dedupeLogs arr).map logKey).Nodup ∧
    (∀ r ∈ arr, logKey r ∈ (dedupeLogs arr).map logKey) ∧
    (∀ i, r1.id = some i → r2.id = some i → dedupeLogs [r1, r2] = [r1]) ∧
    (r1.id = none → r2.id = none → r1.timestamp = r2.timestamp →
      r1.message = r2.message → r1.message ≠ "" → dedupeLogs [r1, r2] = [r1]) := by
  refine ⟨(dedupeLogsAux_nodup_and_fresh arr []).1, ?_, ?_, ?_⟩
  · intro r hr
    rcases dedupeLogsAux_mem arr [] r hr with h | h
    · simp at h
    · exact h
  · intro i h1 h2
    exact dedupeLogs_pair r1 r2 (by simp [logKey, h1, h2])
  · intro h1 h2 ht hm hne
    refine dedupeLogs_pair r1 r2 ?_
    simp [logKey, h1, h2, ← ht, ← hm, hne]

/-- C8 witness: two rows with id `"1"` collapse, and two id-less rows with
equal timestamp and equal nonempty message collapse, each to one row. -/
theorem dedupeLogs_identity_witness :
    dedupeLogs [rowId1a, rowId1b] = [rowId1a] ∧
    dedupeLogs [rowTsMsgA, rowTsMsgB] = [rowTsMsgA] := by
  constructor
  · exact (dedupeLogs_identity [] rowId1a rowId1b).2.2.1 "1" rfl rfl
  · exact (dedupeLogs_identity [] rowTsMsgA rowTsMsgB).2.2.2 rfl rfl rfl rfl (by decide)

/-! ## Dashboard page (`src/pages/dashboard.jsx`)

`stableLogKey`, `getTimestampFromLog` and the merge-with-cache refresh of
`initialLoadAndStartPolling` (lines 208–220 for the initial load and
224–241 for each poll tick — both run the same merge).

Rows are modelled with the fields these functions read.  The timestamp
candidate is a single numeric field (a JS number, embedded as `Int` with
`none` for absent): the numeric branch of `getTimestampFromLog`
(lines 61–69) is embedded exactly, including the `1e12`/`1e9`
seconds-vs-milliseconds scaling and JS `Date`'s ±8.64e15 ms validity
range; the engine-defined parsing of *string* dates is outside the
model. -/

/-- A dashboard log row: identifier candidates (`""` = falsy/absent, the
code tests them with plain truthiness), a numeric timestamp candidate, and
the message candidates `message`/`msg`/`m`. -/
structure DashRow where
  id : String
  _id : String
  uuid : String
  timestamp : Option Int
  message : String
  msg : String
  m : String
  deriving DecidableEq, Repr

/-- JS `Date` validity: `new Date(ms)` is valid iff `|ms| ≤ 8.64e15`
(`isNaN(d.getTime())` otherwise, and the code skips the candidate). -/
def validDateMs (ms : Int) : Option Int :=
  if ms.natAbs ≤ 8640000000000000 then some ms else none

/-- The numeric branch of `getTimestampFromLog` (dashboard.jsx
lines 61–69), returning the parsed time in milliseconds: values above
`1e12` are taken as ms, values above `1e9` as seconds (scaled by 1000),
anything else as ms. -/
def getTimestampFromLog (l : DashRow) : Option Int :=
  match l.timestamp with
  | none => none
  | some c =>
    if c > 10 ^ 12 then validDateMs c
    else if c > 10 ^ 9 then validDateMs (c * 1000)
    else validDateMs c

/-- JS `s.slice(0, n)`: the first `n` characters. -/
def strSlice (s : String) (n : Nat) : String := String.mk (s.data.take n)

/-- The `JSON.stringify(l)` fallback of `stableLogKey` (line 106),
modelled as a canonical serialization of the row's fields. -/
def serializeDashRow (l : DashRow) : String :=
  String.intercalate "," [l.id, l._id, l.uuid,
    (match l.timestamp with | some t => toString t | none => ""),
    l.message, l.msg, l.m]

/-- `stableLogKey` (lines 98–107): an id candidate when truthy, else
`<ms>::<message|msg|m sliced to 240>` when the timestamp parses, else the
serialized row sliced to 500. -/
def stableLogKey (l : DashRow) : String :=
  if l.id ≠ "" then l.id
  else if l._id ≠ "" then l._id
  else if l.uuid ≠ "" then l.uuid
  else
    let msgPart :=
      strSlice (if l.message ≠ "" then l.message
        else if l.msg ≠ "" then l.msg else l.m) 240
    match getTimestampFromLog l with
    | some ts => toString ts ++ "::" ++ msgPart
    | none => strSlice (serializeDashRow l) 500

/-- The sort key of the merge comparator (lines 214–216 and 232–234):
`getTimestampFromLog(x)?.getTime() || 0` — the parsed ms, or `0` when the
timestamp does not parse. -/
def tsKeyOf (r : DashRow) : Int :=
  match getTimestampFromLog r with
  | some t => t
  | none => 0

/-- The merge comparator `ta - tb ≤ 0`. -/
def tsLE (a b : DashRow) : Prop := tsKeyOf a ≤ tsKeyOf b

instance : DecidableRel tsLE := fun a b => Int.decLe (tsKeyOf a) (tsKeyOf b)

instance : IsTotal DashRow tsLE := ⟨fun a b => Int.le_total (tsKeyOf a) (tsKeyOf b)⟩

instance : IsTrans DashRow tsLE := ⟨fun _ _ _ hab hbc => le_trans hab hbc⟩

/-- `map.set(stableLogKey(r), r)` on a JS `Map` held as an insertion-ordered
association list of rows: replace in place the row with the same key, else
append. -/
def upsertRow (m : List DashRow) (r : DashRow) : List DashRow :=
  match m with
  | [] => [r]
  | x :: rest =>
    if stableLogKey x = stableLogKey r then r :: rest
    else x :: upsertRow rest r

/-- `for (const c of rows) m.set(stableLogKey(c), c)`. -/
def insertAllRows (m : List DashRow) (rows : List DashRow) : List DashRow :=
  rows.foldl upsertRow m

/-- The merge of `initialLoadAndStartPolling`: cache rows first, then the
freshly fetched rows (later `set`s win), then the stable sort by ascending
`tsKeyOf` (`Array.from(map.values()).sort((a, b) => ta - tb)`). -/
def mergeLogs (cur newest : List DashRow) : List DashRow :=
  List.insertionSort tsLE (insertAllRows (insertAllRows [] cur) newest)

theorem upsertRow_keys (r : DashRow) (k : String) :
    ∀ m : List DashRow,
      (k ∈ (upsertRow m r).map stableLogKey ↔
        k ∈ m.map stableLogKey ∨ k = stableLogKey r) := by
  intro m
  induction m with
  | nil => simp [upsertRow]
  | cons x rest ih =>
    by_cases h : stableLogKey x = stableLogKey r
    · simp only [upsertRow, if_pos h, List.map_cons, List.mem_cons]
      constructor
      · rintro (hk | hk)
        · exact Or.inr hk
        · exact Or.inl (Or.inr hk)
      · rintro ((hk | hk) | hk)
        · exact Or.inl (h ▸ hk)
        · exact Or.inr hk
        · exact Or.inl hk
    · simp only [upsertRow, if_neg h, List.map_cons, List.mem_cons, ih]
      tauto

theorem upsertRow_keys_nodup (r : DashRow) :
    ∀ m : List DashRow, (m.map stableLogKey).Nodup →
      ((upsertRow m r).map stableLogKey).Nodup := by
  intro m
  induction m with
  | nil => intro _; simp [upsertRow]
  | cons x rest ih =>
    intro h
    rw [List.map_cons, List.nodup_cons] at h
    obtain ⟨hx, hrest⟩ := h
    by_cases hk : stableLogKey x = stableLogKey r
    · simp only [upsertRow, if_pos hk, List.map_cons, List.nodup_cons]
      exact ⟨hk ▸ hx, hrest⟩
    · simp only [upsertRow, if_neg hk, List.map_cons, List.nodup_cons]
      refine ⟨?_, ih hrest⟩
      rw [upsertRow_keys]
      rintro (hc | hc)
      · exact hx hc
      · exact hk hc

theorem insertAllRows_keys_nodup (rows : List DashRow) :
    ∀ m : List DashRow, (m.map stableLogKey).Nodup →
      ((insertAllRows m rows).map stableLogKey).Nodup := by
  induction rows with
  | nil => intro m h; exact h
  | cons r rest ih =>
    intro m h
    exact ih (upsertRow m r) (upsertRow_keys_nodup r m h)

theorem insertAllRows_keys_sup (rows : List DashRow) :
    ∀ m : List DashRow, ∀ k ∈ m.map stableLogKey,
      k ∈ (insertAllRows m rows).map stableLogKey := by
  induction rows with
  | nil => intro m k hk; exact hk
  | cons r rest ih =>
    intro m k hk
    exact ih (upsertRow m r) k ((upsertRow_keys r k m).mpr (Or.inl hk))

theorem insertAllRows_mem_rows (rows : List DashRow) :
    ∀ m : List DashRow, ∀ r ∈ rows,
      stableLogKey r ∈ (insertAllRows m rows).map stableLogKey := by
  induction rows with
  | nil => intro m r hr; simp at hr
  | cons x rest ih =>
    intro m r hr
    rcases List.mem_cons.mp hr with rfl | hr'
    · exact insertAllRows_keys_sup rest (upsertRow m r) _
        ((upsertRow_keys r _ m).mpr (Or.inr rfl))
    · exact ih (upsertRow m x) r hr'

/-- `rowNegTs` carries a pre-epoch numeric timestamp (−1000 ms). -/
def rowNegTs : DashRow :=
  { id := "", _id := "", uuid := "", timestamp := some (-1000),
    message := "pre-epoch", msg := "", m := "" }

/-- `rowNoTs` has no parsable timestamp at all. -/
def rowNoTs : DashRow :=
  { id := "", _id := "", uuid := "", timestamp := none,
    message := "no time", msg := "", m := "" }

set_option maxRecDepth 2000 in
/-- C9 counterexample: merging a pre-epoch row (parsed timestamp −1000 ms)
with a row lacking a parsable timestamp (sort key 0) places the *parsable*
row first — the row lacking a parsable timestamp is not sorted earliest,
contradicting the claim. -/
theorem dashboard_merge_counterexample :
    getTimestampFromLog rowNoTs = none ∧
    getTimestampFromLog rowNegTs = some (-1000) ∧
    mergeLogs [] [rowNegTs, rowNoTs] = [rowNegTs, rowNoTs] ∧
    (mergeLogs [] [rowNegTs, rowNoTs]).head? ≠ some rowNoTs := by
  refine ⟨by decide, by decide, by decide, by decide⟩

/-- C9 (amended) —
Each refresh merges the cache with the fetched rows keyed by
`stableLogKey` — every cache row's key and every fetched row's key is
still represented, and the merged list has pairwise-distinct keys, so
repeated polling never duplicates a row — and the merged list is ordered
by ascending sort key `parsed-timestamp-or-0`: rows lacking a parsable
timestamp are assigned key 0 (the epoch), hence sort earliest only among
rows with nonnegative timestamps, pre-epoch rows coming first. -/
theorem dashboard_merge_cache (cur newest : List DashRow) :
    (mergeLogs cur newest).Sorted tsLE ∧
    ((mergeLogs cur newest).map stableLogKey).Nodup ∧
    (∀ r ∈ cur, stableLogKey r ∈ (mergeLogs cur newest).map stableLogKey) ∧
    (∀ r ∈ newest, stableLogKey r ∈ (mergeLogs cur newest).map stableLogKey) ∧
    (∀ r : DashRow, getTimestampFromLog r = none → tsKeyOf r = 0) := by
  have hperm : List.Perm ((mergeLogs cur newest).map stableLogKey)
      ((insertAllRows (insertAllRows [] cur) newest).map stableLogKey) :=
    (List.perm_insertionSort tsLE _).map stableLogKey
  refine ⟨List.sorted_insertionSort tsLE _, ?_, ?_, ?_, ?_⟩
  · exact hperm.nodup_iff.mpr
      (insertAllRows_keys_nodup newest _ (insertAllRows_keys_nodup cur [] (by simp)))
  · intro r hr
    exact hperm.mem_iff.mpr
      (insertAllRows_keys_sup newest _ _ (insertAllRows_mem_rows cur [] r hr))
  · intro r hr
    exact hperm.mem_iff.mpr (insertAllRows_mem_rows newest _ r hr)
  · intro r hr
    simp [tsKeyOf, hr]

/-- C9 witness: merging a one-row cache with a one-row fetch keeps both
keys, sorted, with no duplicate keys. -/
theorem dashboard_merge_cache_witness :
    (mergeLogs [rowNegTs] [rowNoTs]).Sorted tsLE ∧
    ((mergeLogs [rowNegTs] [rowNoTs]).map stableLogKey).Nodup ∧
    stableLogKey rowNegTs ∈ (mergeLogs [rowNegTs] [rowNoTs]).map stableLogKey ∧
    stableLogKey rowNoTs ∈ (mergeLogs [rowNegTs] [rowNoTs]).map stableLogKey := by
  obtain ⟨h1, h2, h3, h4, h5⟩ := dashboard_merge_cache [rowNegTs] [rowNoTs]
  exact ⟨h1, h2, h3 rowNegTs (by simp), h4 rowNoTs (by simp)⟩

end InsightLogs
